import Mathlib

/-!
Shallow embedding of `src/principal.py`, a single-pass Streamlit dashboard:
upload of tab-separated Darwin Core occurrence records, cleaning (drop of
rows with a null `species`, `pd.to_datetime` on `eventDate`), filtering by a
selected species, a spatial `contains` join against protected-area (ASP)
polygons with a per-polygon count of non-null `gbifID` values, and the
derived chart data (yearly series, monthly series, top-15 positive counts).

Conventions of the embedding:
* dataframe rows are list elements; nullable columns are `Option` fields;
* `pd.to_datetime` is modelled on ISO `YYYY-MM-DD` text: parse failure is
  `none` and aborts the whole cleaning step, a null value becomes a null
  date (pandas `NaT`), exactly as `pd.to_datetime` does;
* polygon boundaries are axis-aligned rectangles over `ℚ`; the shapely
  `contains` predicate used by `sjoin(..., predicate="contains")` is the
  strict interior test, so every comparison below is strict;
* `groupby` sorts its keys and drops rows whose key is null, as pandas
  does; the aggregation `("gbifID", "count")` counts non-null values.
-/

namespace Principal

/-- A structured date, the result of the `pd.to_datetime` coercion of the
`eventDate` column (line 58 of `principal.py`). -/
structure Fecha where
  year : Nat
  month : Nat
  day : Nat
deriving DecidableEq

/-- Split a character list at every occurrence of the separator, like
`str.split` on one character. -/
def separar (sep : Char) : List Char → List (List Char)
  | [] => [[]]
  | c :: cs =>
    match separar sep cs with
    | [] => [[c]]
    | g :: gs => if c = sep then [] :: g :: gs else (c :: g) :: gs

/-- Read a nonempty all-digit character group as a number. -/
def leerNatAux : List Char → Nat → Option Nat
  | [], acc => some acc
  | c :: cs, acc =>
    if c.isDigit then leerNatAux cs (acc * 10 + (c.toNat - 48)) else none

/-- Read a character group as a number; an empty or non-digit group fails. -/
def leerNat : List Char → Option Nat
  | [] => none
  | c :: cs => leerNatAux (c :: cs) 0

/-- Model of `pd.to_datetime` on one text value, restricted to the ISO
`YYYY-MM-DD` layout of Darwin Core `eventDate` values: any other text is
unparsable and yields `none` (pandas raises, aborting the run). -/
def to_datetime (s : String) : Option Fecha :=
  match separar '-' s.data with
  | [y, m, d] =>
    match leerNat y, leerNat m, leerNat d with
    | some yn, some mn, some dn =>
      if 1 ≤ mn ∧ mn ≤ 12 ∧ 1 ≤ dn ∧ dn ≤ 31 then some ⟨yn, mn, dn⟩ else none
    | _, _, _ => none
  | _ => none

/-- Code-point lexicographic comparison of character lists: the order
Python's `list.sort()` uses on the species strings (line 64). -/
def lexLe : List Char → List Char → Bool
  | [], _ => true
  | _ :: _, [] => false
  | c :: cs, d :: ds => if c < d then true else if d < c then false else lexLe cs ds

/-- Ascending string order: code-point lexicographic. -/
def strLe (s t : String) : Prop :=
  lexLe s.data t.data = true

instance : DecidableRel strLe :=
  fun s t => instDecidableEqBool (lexLe s.data t.data) true

/-- One row of the uploaded tab-separated file, with the columns
`principal.py` reads (lines 43-48, 56-58, 79, 90).  Every text column is
nullable, as a `pd.read_csv` column is; the coordinate columns feed
`gpd.points_from_xy` (lines 46-47). -/
structure Registro where
  family : Option String
  species : Option String
  eventDate : Option String
  locality : Option String
  occurrenceID : Option String
  gbifID : Option String
  decimalLongitude : ℚ
  decimalLatitude : ℚ
deriving DecidableEq

/-- One row after the cleaning step: `eventDate` has been coerced to the
structured date type (`none` models pandas `NaT` for a null input value). -/
structure RegistroLimpio where
  family : Option String
  species : Option String
  locality : Option String
  occurrenceID : Option String
  gbifID : Option String
  fecha : Option Fecha
  decimalLongitude : ℚ
  decimalLatitude : ℚ
deriving DecidableEq

/-- A point location, as built by `gpd.points_from_xy(decimalLongitude,
decimalLatitude)` (lines 46-47). -/
structure Punto where
  x : ℚ
  y : ℚ
deriving DecidableEq

/-- The point geometry of a cleaned record. -/
def punto (r : RegistroLimpio) : Punto :=
  ⟨r.decimalLongitude, r.decimalLatitude⟩

/-- A protected-area (ASP) polygon of the remote layer loaded on line 51,
with the attributes the script uses (`id` on line 79, `nombre_asp` on
lines 122-126) and an axis-aligned rectangular boundary. -/
structure Poligono where
  id : String
  nombre_asp : String
  x1 : ℚ
  y1 : ℚ
  x2 : ℚ
  y2 : ℚ
deriving DecidableEq

/-- Shapely point-in-polygon `contains`, the predicate of the spatial join
on line 77: true exactly when the point lies in the open interior of the
rectangle, so a point on the boundary is not contained. -/
def contiene (a : Poligono) (q : Punto) : Bool :=
  decide (a.x1 < q.x) && decide (q.x < a.x2) && decide (a.y1 < q.y) && decide (q.y < a.y2)

/-- The date coercion of one remaining row (line 58): a null value becomes
a null date (`NaT`); unparsable text fails. -/
def convertir (r : Registro) : Option RegistroLimpio :=
  match r.eventDate with
  | none => some ⟨r.family, r.species, r.locality, r.occurrenceID, r.gbifID,
      none, r.decimalLongitude, r.decimalLatitude⟩
  | some s =>
    match to_datetime s with
    | none => none
    | some f => some ⟨r.family, r.species, r.locality, r.occurrenceID, r.gbifID,
        some f, r.decimalLongitude, r.decimalLatitude⟩

/-- `pd.to_datetime` over the whole remaining column (line 58): the first
unparsable value aborts the operation with no partial output. -/
def limpiarFechas : List Registro → Option (List RegistroLimpio)
  | [] => some []
  | r :: rest =>
    match convertir r, limpiarFechas rest with
    | some x, some l => some (x :: l)
    | _, _ => none

/-- The cleaning step, lines 56-58: drop rows whose `species` is null,
then coerce the date column, failing the whole run on unparsable text. -/
def limpiar (rs : List Registro) : Option (List RegistroLimpio) :=
  limpiarFechas (rs.filter (fun r => r.species.isSome))

/-- The species selection list, lines 63-64: the distinct values of the
(already non-null) `species` column, sorted ascending. -/
def lista_especies (l : List RegistroLimpio) : List String :=
  List.insertionSort strLe (l.filterMap (fun r => r.species)).dedup

/-- The species filter, line 73: rows whose `species` equals the selected
value (a pandas `==` against a null value is false). -/
def filtrar (l : List RegistroLimpio) (esp : String) : List RegistroLimpio :=
  l.filter (fun r => r.species == some esp)

/-- The displayed table, line 90: the fixed renamed column subset. -/
def tabla (l : List RegistroLimpio) :
    List (Option String × Option String × Option Fecha × Option String × Option String) :=
  l.map (fun r => (r.family, r.species, r.fecha, r.locality, r.occurrenceID))

/-- A pandas `groupby(key).count()` over rows with an optional grouping
key: one `(key, count)` row per distinct non-null key, keys sorted
ascending, rows with a null key dropped (pandas `dropna=True`). -/
def agrupar_conteo (key : RegistroLimpio → Option Nat) (l : List RegistroLimpio) :
    List (Nat × Nat) :=
  (List.insertionSort (· ≤ ·) (l.filterMap key).dedup).map
    (fun k => (k, (l.filter (fun r => key r == some k)).length))

/-- The yearly series, lines 94-95: group the filtered rows by the year
component of `eventDate` and count. -/
def registros_presencia_grp_anio (l : List RegistroLimpio) : List (Nat × Nat) :=
  agrupar_conteo (fun r => r.fecha.map (fun f => f.year)) l

/-- The monthly series, lines 108-109: group the filtered rows by the
month component of `eventDate` (across all years) and count. -/
def registros_presencia_grp_mes (l : List RegistroLimpio) : List (Nat × Nat) :=
  agrupar_conteo (fun r => r.fecha.map (fun f => f.month)) l

/-- The joined rows one polygon contributes to the left spatial join of
line 77: one row per contained record, or one row with null record
columns when the polygon contains no record (`how="left"`). -/
def grupo (a : Poligono) (rs : List RegistroLimpio) :
    List (Poligono × Option RegistroLimpio) :=
  match rs.filter (fun r => contiene a (punto r)) with
  | [] => [(a, none)]
  | ms => ms.map (fun r => (a, some r))

/-- The left spatial join of line 77, `asp.sjoin(registros_presencia,
how="left", predicate="contains")`: one output row per (polygon, contained
record) pair, and one row with null record columns for a polygon that
contains no record. -/
def sjoin_contiene : List Poligono → List RegistroLimpio →
    List (Poligono × Option RegistroLimpio)
  | [], _ => []
  | a :: t, rs => grupo a rs ++ sjoin_contiene t rs

/-- The `gbifID` column of a joined row: null when the row has no record
(unmatched left join) or when the record's own `gbifID` is null. -/
def gbifID_fila (pr : Poligono × Option RegistroLimpio) : Option String :=
  pr.2.bind (fun r => r.gbifID)

/-- The aggregated count for one group key of line 79: the number of
joined rows with that `id` and a non-null `gbifID` (the pandas `count`
aggregation ignores nulls). -/
def conteo_id (joined : List (Poligono × Option RegistroLimpio)) (i : String) : Nat :=
  (joined.filter (fun pr => pr.1.id == i && (gbifID_fila pr).isSome)).length

/-- Lines 77-80: the spatial join, then
`groupby("id").agg(cantidad_registros_presencia=("gbifID","count"))` —
one row per distinct `id` (sorted, as pandas sorts group keys), whose
count is the number of joined rows with a non-null `gbifID`. -/
def asp_registros (asp : List Poligono) (rs : List RegistroLimpio) : List (String × Nat) :=
  (List.insertionSort strLe ((sjoin_contiene asp rs).map (fun pr => pr.1.id)).dedup).map
    (fun i => (i, conteo_id (sjoin_contiene asp rs) i))

/-- The number of filtered records with a non-null `gbifID` whose point
lies strictly inside polygon `a`: the value line 79 computes per group. -/
def cuenta (a : Poligono) (rs : List RegistroLimpio) : Nat :=
  (rs.filter (fun r => contiene a (punto r) && r.gbifID.isSome)).length

/-- Line 122: join of the aggregation back to the ASP layer on `id` to
recover `nombre_asp`; an `id` with no match would keep the row with a
null name, and a duplicated `id` would duplicate the row, as a pandas
left join does. -/
def filas_join (asp : List Poligono) : List (String × Nat) → List (Option String × Nat)
  | [] => []
  | (i, c) :: rest =>
    (if (asp.filter (fun a => a.id == i)).isEmpty then [((none : Option String), c)]
     else (asp.filter (fun a => a.id == i)).map (fun a => (some a.nombre_asp, c))) ++
      filas_join asp rest

/-- The name-joined aggregation rows (line 122). -/
def asp_registros_join (asp : List Poligono) (rs : List RegistroLimpio) :
    List (Option String × Nat) :=
  filas_join asp (asp_registros asp rs)

/-- The descending-count order used by
`sort_values("cantidad_registros_presencia", ascending=[False])`. -/
def ordenConteo (p q : Option String × Nat) : Prop :=
  q.2 ≤ p.2

instance : DecidableRel ordenConteo :=
  fun p q => Nat.decLe q.2 p.2

instance : IsTotal (Option String × Nat) ordenConteo :=
  ⟨fun a b => (Nat.le_total b.2 a.2).elim Or.inl Or.inr⟩

instance : IsTrans (Option String × Nat) ordenConteo :=
  ⟨fun _ _ _ h1 h2 => Nat.le_trans h2 h1⟩

/-- Lines 124-126: keep the rows with a strictly positive count, sort by
count descending, take the first 15. -/
def asp_registros_grafico (asp : List Poligono) (rs : List RegistroLimpio) :
    List (Option String × Nat) :=
  (List.insertionSort ordenConteo
    ((asp_registros_join asp rs).filter (fun p => decide (0 < p.2)))).take 15

/-- The rendered output of one full run: the data behind every table and
chart the script draws (lines 88-144). -/
structure Salida where
  lista : List String
  filtro_especie : String
  tabla_registros : List (Option String × Option String × Option Fecha × Option String × Option String)
  grp_anio : List (Nat × Nat)
  grp_mes : List (Nat × Nat)
  registros_asp : List (String × Nat)
  grafico : List (Option String × Nat)

/-- The three observable outcomes of one script run: no file uploaded
(only the upload prompt, line 41), an unhandled error (failed polygon
fetch or unparsable date), or a rendered output. -/
inductive Resultado where
  | sinArchivo : Resultado
  | error : Resultado
  | salida : Salida → Resultado

/-- One full run of the script (the whole `if` body, lines 41-144), as a
pure function of the optional parsed upload, the polygon fetch (line 51,
which can fail), and the user's selectbox choice (line 65, a choice from
the offered list). The guard on line 41 makes the no-file run produce
nothing but the upload prompt. -/
def ejecutar (archivo : Option (List Registro))
    (descargar_asp : Unit → Option (List Poligono))
    (seleccionar : List String → String) : Resultado :=
  match archivo with
  | none => Resultado.sinArchivo
  | some registros =>
    match descargar_asp () with
    | none => Resultado.error
    | some asp =>
      match limpiar registros with
      | none => Resultado.error
      | some limpios =>
        let lista := lista_especies limpios
        let esp := seleccionar lista
        let filtrados := filtrar limpios esp
        Resultado.salida
          { lista := lista
            filtro_especie := esp
            tabla_registros := tabla filtrados
            grp_anio := registros_presencia_grp_anio filtrados
            grp_mes := registros_presencia_grp_mes filtrados
            registros_asp := asp_registros asp filtrados
            grafico := asp_registros_grafico asp filtrados }

/-! ### Order facts for the string sort -/

theorem lexLe_total (xs ys : List Char) : lexLe xs ys = true ∨ lexLe ys xs = true := by
  induction xs generalizing ys with
  | nil => exact Or.inl rfl
  | cons x xs ih =>
    cases ys with
    | nil => exact Or.inr rfl
    | cons y ys =>
      rcases lt_trichotomy x y with h | h | h
      · left; simp [lexLe, h]
      · subst h
        rcases ih ys with h2 | h2
        · left; simp [lexLe, lt_irrefl, h2]
        · right; simp [lexLe, lt_irrefl, h2]
      · right; simp [lexLe, h]

theorem lexLe_trans (xs ys zs : List Char) (h1 : lexLe xs ys = true)
    (h2 : lexLe ys zs = true) : lexLe xs zs = true := by
  induction xs generalizing ys zs with
  | nil => rfl
  | cons x xs ih =>
    cases ys with
    | nil => simp [lexLe] at h1
    | cons y ys =>
      cases zs with
      | nil => simp [lexLe] at h2
      | cons z zs =>
        by_cases hxy : x < y
        · by_cases hyz : y < z
          · simp [lexLe, lt_trans hxy hyz]
          · by_cases hzy : z < y
            · simp [lexLe, hyz, hzy] at h2
            · have hyzeq : y = z := le_antisymm (not_lt.mp hzy) (not_lt.mp hyz)
              subst hyzeq
              simp [lexLe, hxy]
        · by_cases hyx : y < x
          · simp [lexLe, hxy, hyx] at h1
          · have hxyeq : x = y := le_antisymm (not_lt.mp hyx) (not_lt.mp hxy)
            subst hxyeq
            simp only [lexLe, lt_irrefl, if_false] at h1
            by_cases hxz : x < z
            · simp [lexLe, hxz]
            · by_cases hzx : z < x
              · simp [lexLe, hxz, hzx] at h2
              · have hxzeq : x = z := le_antisymm (not_lt.mp hzx) (not_lt.mp hxz)
                subst hxzeq
                simp only [lexLe, lt_irrefl, if_false] at h2 ⊢
                exact ih ys zs h1 h2

theorem lexLe_antisymm (xs ys : List Char) (h1 : lexLe xs ys = true)
    (h2 : lexLe ys xs = true) : xs = ys := by
  induction xs generalizing ys with
  | nil =>
    cases ys with
    | nil => rfl
    | cons y ys => simp [lexLe] at h2
  | cons x xs ih =>
    cases ys with
    | nil => simp [lexLe] at h1
    | cons y ys =>
      by_cases hxy : x < y
      · simp [lexLe, hxy, lt_asymm hxy] at h2
      · by_cases hyx : y < x
        · simp [lexLe, hxy, hyx] at h1
        · have hxyeq : x = y := le_antisymm (not_lt.mp hyx) (not_lt.mp hxy)
          subst hxyeq
          simp only [lexLe, lt_irrefl, if_false] at h1 h2
          rw [ih ys h1 h2]

instance : IsTotal String strLe :=
  ⟨fun s t => lexLe_total s.data t.data⟩

instance : IsTrans String strLe :=
  ⟨fun a b c h1 h2 => lexLe_trans a.data b.data c.data h1 h2⟩

instance : IsAntisymm String strLe :=
  ⟨fun a b h1 h2 => by
    cases a with
    | mk da =>
      cases b with
      | mk db => exact congrArg String.mk (lexLe_antisymm da db h1 h2)⟩

/-! ### Facts about the cleaning step -/

theorem convertir_species {r : Registro} {x : RegistroLimpio} (h : convertir r = some x) :
    x.species = r.species := by
  cases hed : r.eventDate with
  | none =>
    simp only [convertir, hed] at h
    cases h
    rfl
  | some s =>
    simp only [convertir, hed] at h
    cases hf : to_datetime s with
    | none => rw [hf] at h; cases h
    | some f =>
      rw [hf] at h
      cases h
      rfl

theorem limpiarFechas_isSome (xs : List Registro) :
    (limpiarFechas xs).isSome = true ↔ ∀ r ∈ xs, (convertir r).isSome = true := by
  induction xs with
  | nil => simp [limpiarFechas]
  | cons r rest ih =>
    cases hc : convertir r <;> cases hl : limpiarFechas rest <;>
      simp_all [limpiarFechas, hc, hl]

theorem limpiarFechas_forall₂ {xs : List Registro} {l : List RegistroLimpio}
    (h : limpiarFechas xs = some l) :
    List.Forall₂ (fun r x => convertir r = some x) xs l := by
  induction xs generalizing l with
  | nil => cases h; exact List.Forall₂.nil
  | cons r rest ih =>
    cases hc : convertir r with
    | none => simp [limpiarFechas, hc] at h
    | some x =>
      cases hl : limpiarFechas rest with
      | none => simp [limpiarFechas, hc, hl] at h
      | some l0 =>
        simp only [limpiarFechas, hc, hl] at h
        cases h
        exact List.Forall₂.cons hc (ih hl)

theorem limpiarFechas_map_species {xs : List Registro} {l : List RegistroLimpio}
    (h : limpiarFechas xs = some l) :
    l.map (fun x => x.species) = xs.map (fun r => r.species) := by
  have h2 := limpiarFechas_forall₂ h
  clear h
  induction h2 with
  | nil => rfl
  | cons hc _ ih => simp [ih, convertir_species hc]

theorem limpiar_map_species {rs : List Registro} {l : List RegistroLimpio}
    (h : limpiar rs = some l) :
    l.map (fun x => x.species) = (rs.filter (fun r => r.species.isSome)).map
      (fun r => r.species) :=
  limpiarFechas_map_species h

/-! ### Facts about the spatial join and the per-polygon aggregation -/

theorem mem_grupo {a : Poligono} {rs : List RegistroLimpio}
    {pr : Poligono × Option RegistroLimpio} (h : pr ∈ grupo a rs) :
    pr.1 = a ∧ (pr.2 = none ∨ ∃ r ∈ rs, pr.2 = some r ∧ contiene a (punto r) = true) := by
  unfold grupo at h
  cases hm : rs.filter (fun r => contiene a (punto r)) with
  | nil =>
    rw [hm] at h
    simp only [List.mem_singleton] at h
    subst h
    exact ⟨rfl, Or.inl rfl⟩
  | cons m ms =>
    rw [hm] at h
    simp only [List.mem_map] at h
    obtain ⟨r, hr, hpr⟩ := h
    subst hpr
    rw [← hm] at hr
    have hr2 := List.mem_filter.mp hr
    exact ⟨rfl, Or.inr ⟨r, hr2.1, rfl, hr2.2⟩⟩

theorem grupo_exists_row (a : Poligono) (rs : List RegistroLimpio) :
    ∃ o, (a, o) ∈ grupo a rs := by
  unfold grupo
  cases hm : rs.filter (fun r => contiene a (punto r)) with
  | nil => exact ⟨none, by simp⟩
  | cons m ms => exact ⟨some m, by simp⟩

theorem mem_sjoin {asp : List Poligono} {rs : List RegistroLimpio}
    {pr : Poligono × Option RegistroLimpio} (h : pr ∈ sjoin_contiene asp rs) :
    pr.1 ∈ asp ∧ (pr.2 = none ∨ ∃ r ∈ rs, pr.2 = some r ∧ contiene pr.1 (punto r) = true) := by
  induction asp with
  | nil => simp [sjoin_contiene] at h
  | cons a t ih =>
    simp only [sjoin_contiene, List.mem_append] at h
    rcases h with h | h
    · have h2 := mem_grupo h
      refine ⟨h2.1 ▸ List.mem_cons_self a t, ?_⟩
      rw [h2.1]
      exact h2.2
    · have h2 := ih h
      exact ⟨List.mem_cons_of_mem _ h2.1, h2.2⟩

theorem sjoin_exists_row {asp : List Poligono} (rs : List RegistroLimpio)
    {a : Poligono} (ha : a ∈ asp) : ∃ o, (a, o) ∈ sjoin_contiene asp rs := by
  induction asp with
  | nil => cases ha
  | cons b t ih =>
    rcases List.mem_cons.mp ha with h | h
    · subst h
      obtain ⟨o, ho⟩ := grupo_exists_row a rs
      refine ⟨o, ?_⟩
      simp only [sjoin_contiene, List.mem_append]
      exact Or.inl ho
    · obtain ⟨o, ho⟩ := ih h
      refine ⟨o, ?_⟩
      simp only [sjoin_contiene, List.mem_append]
      exact Or.inr ho

theorem sjoin_map_id_mem (asp : List Poligono) (rs : List RegistroLimpio) (i : String) :
    i ∈ (sjoin_contiene asp rs).map (fun pr => pr.1.id) ↔ i ∈ asp.map (fun a => a.id) := by
  constructor
  · intro h
    obtain ⟨pr, hpr, hi⟩ := List.mem_map.mp h
    exact List.mem_map.mpr ⟨pr.1, (mem_sjoin hpr).1, hi⟩
  · intro h
    obtain ⟨a, ha, hi⟩ := List.mem_map.mp h
    obtain ⟨o, ho⟩ := sjoin_exists_row rs ha
    exact List.mem_map.mpr ⟨(a, o), ho, hi⟩

theorem claves_sjoin_eq (asp : List Poligono) (rs : List RegistroLimpio) :
    List.insertionSort strLe ((sjoin_contiene asp rs).map (fun pr => pr.1.id)).dedup =
      List.insertionSort strLe (asp.map (fun a => a.id)).dedup := by
  apply List.eq_of_perm_of_sorted ?_ (List.sorted_insertionSort _ _)
    (List.sorted_insertionSort _ _)
  refine ((List.perm_insertionSort _ _).trans ?_).trans (List.perm_insertionSort _ _).symm
  refine (List.perm_ext_iff_of_nodup (List.nodup_dedup _) (List.nodup_dedup _)).mpr ?_
  intro x
  simp only [List.mem_dedup]
  exact sjoin_map_id_mem asp rs x

theorem asp_registros_eq (asp : List Poligono) (rs : List RegistroLimpio) :
    asp_registros asp rs =
      (List.insertionSort strLe (asp.map (fun a => a.id)).dedup).map
        (fun i => (i, conteo_id (sjoin_contiene asp rs) i)) := by
  unfold asp_registros
  rw [claves_sjoin_eq]

theorem conteo_id_append (xs ys : List (Poligono × Option RegistroLimpio)) (i : String) :
    conteo_id (xs ++ ys) i = conteo_id xs i + conteo_id ys i := by
  simp [conteo_id, List.filter_append]

theorem conteo_id_grupo_self (a : Poligono) (rs : List RegistroLimpio) :
    conteo_id (grupo a rs) a.id = cuenta a rs := by
  unfold conteo_id grupo cuenta
  cases hm : rs.filter (fun r => contiene a (punto r)) with
  | nil =>
    have hnil : rs.filter (fun r => contiene a (punto r) && r.gbifID.isSome) = [] := by
      rw [List.filter_eq_nil_iff]
      intro r hr
      have hno := List.filter_eq_nil_iff.mp hm r hr
      simp only [Bool.and_eq_true, not_and]
      intro hc
      exact absurd hc hno
    simp [hnil, gbifID_fila]
  | cons m ms =>
    rw [List.filter_map]
    have hcomp : ((fun pr : Poligono × Option RegistroLimpio =>
        pr.1.id == a.id && (gbifID_fila pr).isSome) ∘ fun r => (a, some r)) =
        fun r : RegistroLimpio => r.gbifID.isSome := by
      funext r
      simp [gbifID_fila]
    rw [hcomp, List.length_map]
    have hsw : rs.filter (fun r => contiene a (punto r) && r.gbifID.isSome) =
        (rs.filter (fun r => contiene a (punto r))).filter (fun r => r.gbifID.isSome) := by
      rw [List.filter_filter]
      exact (List.filter_congr (fun r _ => Bool.and_comm _ _)).symm
    rw [hsw, hm]

theorem conteo_id_grupo_ne (a : Poligono) (rs : List RegistroLimpio) (i : String)
    (h : ¬ a.id = i) : conteo_id (grupo a rs) i = 0 := by
  unfold conteo_id
  rw [List.length_eq_zero, List.filter_eq_nil_iff]
  intro pr hpr
  have h1 := (mem_grupo hpr).1
  simp [h1, h]

theorem conteo_id_eq_cuenta {asp : List Poligono} (rs : List RegistroLimpio)
    {a : Poligono} (hnd : (asp.map (fun p => p.id)).Nodup) (ha : a ∈ asp) :
    conteo_id (sjoin_contiene asp rs) a.id = cuenta a rs := by
  induction asp with
  | nil => cases ha
  | cons b t ih =>
    simp only [List.map_cons, List.nodup_cons] at hnd
    obtain ⟨hbn, hnd2⟩ := hnd
    have hsplit : sjoin_contiene (b :: t) rs = grupo b rs ++ sjoin_contiene t rs := rfl
    rw [hsplit, conteo_id_append]
    rcases List.mem_cons.mp ha with h | h
    · subst h
      have htail : conteo_id (sjoin_contiene t rs) a.id = 0 := by
        unfold conteo_id
        rw [List.length_eq_zero, List.filter_eq_nil_iff]
        intro pr hpr
        have h1 := (mem_sjoin hpr).1
        have hne : pr.1.id ≠ a.id := by
          intro he
          exact hbn (he ▸ List.mem_map.mpr ⟨pr.1, h1, rfl⟩)
        simp [hne]
      rw [conteo_id_grupo_self, htail, Nat.add_zero]
    · have hne : ¬ b.id = a.id := by
        intro he
        exact hbn (he ▸ List.mem_map.mpr ⟨a, h, rfl⟩)
      rw [conteo_id_grupo_ne b rs a.id hne, ih hnd2 h, Nat.zero_add]

theorem mem_asp_registros {asp : List Poligono} (rs : List RegistroLimpio)
    {a : Poligono} (hnd : (asp.map (fun p => p.id)).Nodup) (ha : a ∈ asp) :
    (a.id, cuenta a rs) ∈ asp_registros asp rs := by
  rw [asp_registros_eq]
  refine List.mem_map.mpr ⟨a.id, ?_, ?_⟩
  · simp only [List.mem_insertionSort, List.mem_dedup]
    exact List.mem_map.mpr ⟨a, ha, rfl⟩
  · rw [conteo_id_eq_cuenta rs hnd ha]

theorem asp_registros_val_unique {asp : List Poligono} {rs : List RegistroLimpio}
    {a : Poligono} {c : Nat} (hnd : (asp.map (fun p => p.id)).Nodup) (ha : a ∈ asp)
    (h : (a.id, c) ∈ asp_registros asp rs) : c = cuenta a rs := by
  rw [asp_registros_eq] at h
  obtain ⟨i, _, hpair⟩ := List.mem_map.mp h
  have h1 : i = a.id := congrArg Prod.fst hpair
  have h2 : conteo_id (sjoin_contiene asp rs) i = c := congrArg Prod.snd hpair
  rw [h1] at h2
  rw [← h2, conteo_id_eq_cuenta rs hnd ha]

/-! ### Counting and summation facts -/

theorem length_filter_split {α : Type} (p : α → Bool) (l : List α) :
    (l.filter p).length + (l.filter (fun a => !(p a))).length = l.length := by
  induction l with
  | nil => rfl
  | cons a t ih =>
    cases hp : p a with
    | true =>
      rw [List.filter_cons_of_pos (by simp [hp]), List.filter_cons_of_neg (by simp [hp])]
      simp only [List.length_cons]
      omega
    | false =>
      rw [List.filter_cons_of_neg (by simp [hp]), List.filter_cons_of_pos (by simp [hp])]
      simp only [List.length_cons]
      omega

theorem sum_conteos {α κ : Type} [DecidableEq κ] (key : α → Option κ) :
    ∀ (keys : List κ) (l : List α), keys.Nodup →
      (∀ x ∈ l, ∀ k, key x = some k → k ∈ keys) →
      (keys.map (fun k => (l.filter (fun x => key x == some k)).length)).sum =
        (l.filter (fun x => (key x).isSome)).length := by
  intro keys
  induction keys with
  | nil =>
    intro l _ hcov
    have hnil : l.filter (fun x => (key x).isSome) = [] := by
      rw [List.filter_eq_nil_iff]
      intro x hx
      cases hk : key x with
      | none => simp [hk]
      | some k => exact absurd (hcov x hx k hk) (List.not_mem_nil k)
    simp [hnil]
  | cons k ks ih =>
    intro l hnd hcov
    have hnd2 := List.nodup_cons.mp hnd
    have hstep : ∀ j ∈ ks,
        (l.filter (fun x => key x == some j)).length =
          ((l.filter (fun x => !(key x == some k))).filter
            (fun x => key x == some j)).length := by
      intro j hj
      rw [List.filter_filter]
      congr 1
      apply List.filter_congr
      intro x _
      cases hkx : (key x == some j) with
      | false => simp [hkx]
      | true =>
        have hx : key x = some j := by simpa using hkx
        have hjne : j ≠ k := fun he => hnd2.1 (he ▸ hj)
        have hfalse : (key x == some k) = false := by
          rw [hx]
          simpa using hjne
        simp [hkx, hfalse]
    rw [List.map_cons, List.sum_cons, List.map_congr_left hstep,
      ih (l.filter (fun x => !(key x == some k))) hnd2.2 ?cov]
    case cov =>
      intro x hx k2 hk2
      have hxl := List.mem_filter.mp hx
      rcases List.mem_cons.mp (hcov x hxl.1 k2 hk2) with he | hin
      · exfalso
        have := hxl.2
        rw [hk2, he] at this
        simp at this
      · exact hin
    have e1 : l.filter (fun x => key x == some k) =
        (l.filter (fun x => (key x).isSome)).filter (fun x => key x == some k) := by
      rw [List.filter_filter]
      apply List.filter_congr
      intro x _
      cases hkx : (key x == some k) with
      | false => simp [hkx]
      | true =>
        have hx : key x = some k := by simpa using hkx
        simp [hkx, hx]
    have e2 : (l.filter (fun x => !(key x == some k))).filter (fun x => (key x).isSome) =
        (l.filter (fun x => (key x).isSome)).filter (fun x => !(key x == some k)) := by
      rw [List.filter_filter, List.filter_filter]
      apply List.filter_congr
      intro x _
      exact Bool.and_comm _ _
    rw [e1, e2, length_filter_split]

/-- The grouping key of one joined row as seen by the count aggregation:
the polygon `id` when the row's `gbifID` is non-null, else no key. -/
def claveG (pr : Poligono × Option RegistroLimpio) : Option String :=
  if (gbifID_fila pr).isSome then some pr.1.id else none

theorem conteo_id_eq_filter_claveG (joined : List (Poligono × Option RegistroLimpio))
    (i : String) :
    conteo_id joined i = (joined.filter (fun pr => claveG pr == some i)).length := by
  unfold conteo_id
  congr 1
  apply List.filter_congr
  intro pr _
  unfold claveG
  cases hg : (gbifID_fila pr).isSome <;> simp [hg]

theorem sum_asp_registros (asp : List Poligono) (rs : List RegistroLimpio) :
    ((asp_registros asp rs).map (fun p => p.2)).sum =
      ((sjoin_contiene asp rs).filter (fun pr => (gbifID_fila pr).isSome)).length := by
  unfold asp_registros
  rw [List.map_map]
  have hcomp : ((fun p : String × Nat => p.2) ∘
      fun i => (i, conteo_id (sjoin_contiene asp rs) i)) =
      fun i => conteo_id (sjoin_contiene asp rs) i := rfl
  rw [hcomp]
  have hpt : (fun i => conteo_id (sjoin_contiene asp rs) i) =
      fun i => ((sjoin_contiene asp rs).filter (fun pr => claveG pr == some i)).length := by
    funext i
    exact conteo_id_eq_filter_claveG _ i
  rw [hpt]
  have hfin : (sjoin_contiene asp rs).filter (fun pr => (claveG pr).isSome) =
      (sjoin_contiene asp rs).filter (fun pr => (gbifID_fila pr).isSome) := by
    apply List.filter_congr
    intro pr _
    unfold claveG
    cases hg : (gbifID_fila pr).isSome <;> simp [hg]
  rw [← hfin]
  apply sum_conteos claveG
  · exact ((List.perm_insertionSort _ _).nodup_iff).mpr (List.nodup_dedup _)
  · intro pr hpr k hk
    unfold claveG at hk
    cases hg : (gbifID_fila pr).isSome with
    | false => rw [hg] at hk; simp at hk
    | true =>
      rw [hg] at hk
      simp only [if_true, Option.some.injEq] at hk
      subst hk
      simp only [List.mem_insertionSort, List.mem_dedup]
      exact List.mem_map.mpr ⟨pr, hpr, rfl⟩

theorem length_filter_gbif_le (asp : List Poligono) (rs : List RegistroLimpio) :
    ((sjoin_contiene asp rs).filter (fun pr => (gbifID_fila pr).isSome)).length ≤
      (asp.map (fun a => (rs.filter (fun r => contiene a (punto r))).length)).sum := by
  induction asp with
  | nil => simp [sjoin_contiene]
  | cons a t ih =>
    have hsplit : sjoin_contiene (a :: t) rs = grupo a rs ++ sjoin_contiene t rs := rfl
    rw [hsplit, List.filter_append, List.length_append, List.map_cons, List.sum_cons]
    apply Nat.add_le_add ?_ ih
    unfold grupo
    cases hm : rs.filter (fun r => contiene a (punto r)) with
    | nil => simp [gbifID_fila]
    | cons m ms =>
      calc ((List.map (fun r => (a, some r)) (m :: ms)).filter
            (fun pr => (gbifID_fila pr).isSome)).length
          ≤ (List.map (fun r => (a, some r)) (m :: ms)).length :=
            List.length_filter_le _ _
        _ = (m :: ms).length := List.length_map _ _

theorem length_filter_eq_sum_ite {α : Type} (p : α → Bool) (l : List α) :
    (l.filter p).length = (l.map (fun x => if p x then 1 else 0)).sum := by
  induction l with
  | nil => rfl
  | cons a t ih =>
    cases hp : p a with
    | true =>
      rw [List.filter_cons_of_pos (by simp [hp])]
      simp only [List.length_cons, List.map_cons, List.sum_cons, hp, if_true]
      omega
    | false =>
      rw [List.filter_cons_of_neg (by simp [hp])]
      simp only [List.map_cons, List.sum_cons, hp]
      simp only [Bool.false_eq_true, if_false]
      omega

theorem sum_map_add {α : Type} (f g : α → Nat) (l : List α) :
    (l.map (fun x => f x + g x)).sum = (l.map f).sum + (l.map g).sum := by
  induction l with
  | nil => rfl
  | cons a t ih =>
    simp only [List.map_cons, List.sum_cons, ih]
    omega

theorem sum_map_zero {α : Type} (l : List α) : (l.map (fun _ => (0 : Nat))).sum = 0 := by
  induction l with
  | nil => rfl
  | cons a t ih => simp [ih]

theorem sum_matches_exchange (asp : List Poligono) (rs : List RegistroLimpio) :
    (asp.map (fun a => (rs.filter (fun r => contiene a (punto r))).length)).sum =
      (rs.map (fun r => (asp.filter (fun a => contiene a (punto r))).length)).sum := by
  induction asp with
  | nil => simp [sum_map_zero]
  | cons a t ih =>
    rw [List.map_cons, List.sum_cons, ih, length_filter_eq_sum_ite, ← sum_map_add]
    congr 1
    apply List.map_congr_left
    intro r _
    rw [List.filter_cons]
    cases hc : contiene a (punto r) with
    | true =>
      simp only [hc, if_true, List.length_cons]
      omega
    | false => simp [hc]

theorem sum_map_le_length {α : Type} (f : α → Nat) (l : List α)
    (h : ∀ x ∈ l, f x ≤ 1) : (l.map f).sum ≤ l.length := by
  induction l with
  | nil => exact Nat.le_refl 0
  | cons a t ih =>
    simp only [List.map_cons, List.sum_cons, List.length_cons]
    have h1 := h a (List.mem_cons_self a t)
    have h2 := ih (fun x hx => h x (List.mem_cons_of_mem a hx))
    omega

theorem sum_agrupar_conteo (key : RegistroLimpio → Option Nat) (l : List RegistroLimpio) :
    ((agrupar_conteo key l).map (fun p => p.2)).sum =
      (l.filter (fun r => (key r).isSome)).length := by
  unfold agrupar_conteo
  rw [List.map_map]
  have hcomp : ((fun p : Nat × Nat => p.2) ∘
      fun k => (k, (l.filter (fun r => key r == some k)).length)) =
      fun k => (l.filter (fun r => key r == some k)).length := rfl
  rw [hcomp]
  apply sum_conteos key
  · exact ((List.perm_insertionSort _ _).nodup_iff).mpr (List.nodup_dedup _)
  · intro r hr k hk
    simp only [List.mem_insertionSort, List.mem_dedup]
    exact List.mem_filterMap.mpr ⟨r, hr, hk⟩

theorem cuenta_eq_zero {a : Poligono} {rs : List RegistroLimpio}
    (h : ∀ r ∈ rs, contiene a (punto r) = false) : cuenta a rs = 0 := by
  unfold cuenta
  rw [List.length_eq_zero, List.filter_eq_nil_iff]
  intro r hr
  simp [h r hr]

theorem conteo_id_zero_of_outside {asp : List Poligono} {rs : List RegistroLimpio}
    (h : ∀ a ∈ asp, ∀ r ∈ rs, contiene a (punto r) = false) (i : String) :
    conteo_id (sjoin_contiene asp rs) i = 0 := by
  unfold conteo_id
  rw [List.length_eq_zero, List.filter_eq_nil_iff]
  intro pr hpr
  obtain ⟨h1, h2⟩ := mem_sjoin hpr
  rcases h2 with h2 | ⟨r, hr, h2, hcont⟩
  · simp [gbifID_fila, h2]
  · exact absurd hcont (by simp [h pr.1 h1 r hr])

theorem conteo_id_grupo_append_gbif_none (a : Poligono) (rs : List RegistroLimpio)
    {r : RegistroLimpio} (hg : r.gbifID = none) (i : String) :
    conteo_id (grupo a (rs ++ [r])) i = conteo_id (grupo a rs) i := by
  unfold grupo
  rw [List.filter_append]
  cases hc : contiene a (punto r) with
  | false =>
    have hnil : [r].filter (fun x => contiene a (punto x)) = [] := by simp [hc]
    rw [hnil, List.append_nil]
  | true =>
    have hone : [r].filter (fun x => contiene a (punto x)) = [r] := by simp [hc]
    rw [hone]
    cases hm : rs.filter (fun x => contiene a (punto x)) with
    | nil =>
      simp only [List.nil_append]
      unfold conteo_id
      simp [gbifID_fila, hg]
    | cons m ms =>
      rw [List.cons_append]
      show conteo_id ((m :: (ms ++ [r])).map (fun x => (a, some x))) i =
        conteo_id ((m :: ms).map (fun x => (a, some x))) i
      rw [← List.cons_append, List.map_append, conteo_id_append]
      have hlast : conteo_id ([r].map (fun x => (a, some x))) i = 0 := by
        unfold conteo_id
        simp [gbifID_fila, hg]
      rw [hlast, Nat.add_zero]

theorem conteo_id_sjoin_append_gbif_none (asp : List Poligono) (rs : List RegistroLimpio)
    {r : RegistroLimpio} (hg : r.gbifID = none) (i : String) :
    conteo_id (sjoin_contiene asp (rs ++ [r])) i = conteo_id (sjoin_contiene asp rs) i := by
  induction asp with
  | nil => rfl
  | cons a t ih =>
    have h1 : sjoin_contiene (a :: t) (rs ++ [r]) =
        grupo a (rs ++ [r]) ++ sjoin_contiene t (rs ++ [r]) := rfl
    have h2 : sjoin_contiene (a :: t) rs = grupo a rs ++ sjoin_contiene t rs := rfl
    rw [h1, h2, conteo_id_append, conteo_id_append,
      conteo_id_grupo_append_gbif_none a rs hg i, ih]

theorem mem_filas_join_snd {asp : List Poligono} {rows : List (String × Nat)}
    {q : Option String × Nat} (h : q ∈ filas_join asp rows) : ∃ p ∈ rows, q.2 = p.2 := by
  induction rows with
  | nil => simp [filas_join] at h
  | cons ic rest ih =>
    obtain ⟨i, c⟩ := ic
    simp only [filas_join, List.mem_append] at h
    rcases h with h | h
    · by_cases hm : (asp.filter (fun a => a.id == i)).isEmpty
      · rw [if_pos hm] at h
        simp only [List.mem_singleton] at h
        subst h
        exact ⟨(i, c), List.mem_cons_self _ _, rfl⟩
      · rw [if_neg hm] at h
        obtain ⟨a, _, hq⟩ := List.mem_map.mp h
        subst hq
        exact ⟨(i, c), List.mem_cons_self _ _, rfl⟩
    · obtain ⟨p, hp, he⟩ := ih h
      exact ⟨p, List.mem_cons_of_mem _ hp, he⟩

/-! ### Example data used by witnesses and counterexamples -/

/-- Example polygon with identifier `a`. -/
def poligono_ej : Poligono :=
  ⟨"a", "PN Corcovado", 0, 0, 2, 2⟩

/-- Example polygon with identifier `b`, overlapping `poligono_ej`. -/
def poligono_ej2 : Poligono :=
  ⟨"b", "PN Chirripo", 0, 0, 2, 2⟩

/-- Example cleaned record with a non-null `gbifID`, located inside the
example polygons. -/
def registro_gbif_ej : RegistroLimpio :=
  ⟨none, some "Puma concolor", none, none, some "g1", some ⟨2021, 2, 15⟩, 1, 1⟩

/-- Example cleaned record with a null `gbifID`, located inside the
example polygons. -/
def registro_sin_gbif_ej : RegistroLimpio :=
  ⟨none, some "Puma concolor", none, none, none, some ⟨2021, 2, 15⟩, 1, 1⟩

/-- Example cleaned record with a null event date. -/
def registro_sin_fecha_ej : RegistroLimpio :=
  ⟨none, some "Puma concolor", none, none, some "g2", none, 1, 1⟩

/-- Example raw record with a parseable date. -/
def crudo1 : Registro :=
  ⟨none, some "Puma concolor", some "2021-02-15", none, none, some "g1", 1, 1⟩

/-- Second example raw record, another species. -/
def crudo2 : Registro :=
  ⟨none, some "Ara macao", some "2020-01-02", none, none, some "g2", 1, 1⟩

/-- Example raw record with a null species. -/
def crudo_nulo : Registro :=
  ⟨none, none, some "2020-01-02", none, none, some "g3", 1, 1⟩

/-- The cleaned image of `crudo1`. -/
def limpio1 : RegistroLimpio :=
  ⟨none, some "Puma concolor", none, none, some "g1", some ⟨2021, 2, 15⟩, 1, 1⟩

/-- The cleaned image of `crudo2`. -/
def limpio2 : RegistroLimpio :=
  ⟨none, some "Ara macao", none, none, some "g2", some ⟨2020, 1, 2⟩, 1, 1⟩

/-! ### The claims -/

/-- C1, counterexample to the claim as stated: one polygon, one filtered
record strictly inside it whose `gbifID` is null.  The aggregation of
lines 77-80 counts non-null `gbifID` values, so the polygon's count is 0
while exactly 1 filtered record lies strictly inside its boundary. -/
theorem C1_counterexample :
    asp_registros [poligono_ej] [registro_sin_gbif_ej] = [("a", 0)] ∧
      ([registro_sin_gbif_ej].filter
        (fun r => contiene poligono_ej (punto r))).length = 1 := by
  decide

/-- C1 (amended): for every polygon of a set with distinct identifiers,
the aggregation row for that polygon's identifier exists, is unique, and
its count equals the number of filtered records with a NON-NULL `gbifID`
whose point lies strictly inside the polygon's boundary; a point with a
coordinate on the boundary is never contained. -/
theorem C1_conteo_asp (asp : List Poligono) (rs : List RegistroLimpio) (a : Poligono)
    (hnd : (asp.map (fun p => p.id)).Nodup) (ha : a ∈ asp) :
    (a.id, cuenta a rs) ∈ asp_registros asp rs ∧
      (∀ c, (a.id, c) ∈ asp_registros asp rs → c = cuenta a rs) ∧
      (∀ q : Punto, q.x = a.x1 ∨ q.x = a.x2 ∨ q.y = a.y1 ∨ q.y = a.y2 →
        contiene a q = false) := by
  refine ⟨mem_asp_registros rs hnd ha, ?_, ?_⟩
  · intro c hc
    exact asp_registros_val_unique hnd ha hc
  · intro q hq
    rcases hq with hq | hq | hq | hq <;> simp [contiene, hq]

/-- C1 witness at a concrete input. -/
theorem C1_witness :
    (poligono_ej.id, cuenta poligono_ej [registro_gbif_ej]) ∈
      asp_registros [poligono_ej] [registro_gbif_ej] :=
  (C1_conteo_asp [poligono_ej] [registro_gbif_ej] poligono_ej (by decide) (by decide)).1

/-- C2: every record the filter of line 73 keeps has the selected species,
and the filtered output holds exactly the cleaned records whose species
equals the selection. -/
theorem C2_filtro (l : List RegistroLimpio) (esp : String) :
    (∀ r ∈ filtrar l esp, r.species = some esp) ∧
      (∀ r, r ∈ filtrar l esp ↔ (r ∈ l ∧ r.species = some esp)) := by
  constructor
  · intro r hr
    have h2 := List.mem_filter.mp hr
    simpa using h2.2
  · intro r
    unfold filtrar
    rw [List.mem_filter]
    simp

/-- C2 witness at a concrete input. -/
theorem C2_witness :
    registro_gbif_ej ∈ filtrar [registro_gbif_ej] "Puma concolor" ↔
      (registro_gbif_ej ∈ [registro_gbif_ej] ∧
        registro_gbif_ej.species = some "Puma concolor") :=
  (C2_filtro [registro_gbif_ej] "Puma concolor").2 registro_gbif_ej

/-- C3: for a valid upload (cleaning succeeded), the selection list of
lines 63-64 is sorted, has no duplicates, and holds exactly the distinct
non-null species values of the cleaned records — equivalently, of the raw
records, so a record with a null species contributes no entry. -/
theorem C3_lista_especies (rs : List Registro) (l : List RegistroLimpio)
    (h : limpiar rs = some l) :
    List.Sorted strLe (lista_especies l) ∧ (lista_especies l).Nodup ∧
      (∀ s, s ∈ lista_especies l ↔ ∃ x ∈ l, x.species = some s) ∧
      (∀ s, s ∈ lista_especies l ↔ ∃ r ∈ rs, r.species = some s) := by
  have hmem : ∀ s, s ∈ lista_especies l ↔ ∃ x ∈ l, x.species = some s := by
    intro s
    simp [lista_especies, List.mem_filterMap]
  refine ⟨List.sorted_insertionSort _ _, ?_, hmem, ?_⟩
  · exact ((List.perm_insertionSort _ _).nodup_iff).mpr (List.nodup_dedup _)
  · intro s
    rw [hmem]
    have hmap : ∀ s, (∃ x ∈ l, x.species = some s) ↔
        some s ∈ l.map (fun x => x.species) := by
      intro s
      simp [List.mem_map]
    rw [hmap, limpiar_map_species h]
    constructor
    · intro h2
      obtain ⟨r, hr, he⟩ := List.mem_map.mp h2
      exact ⟨r, (List.mem_filter.mp hr).1, he⟩
    · rintro ⟨r, hr, he⟩
      refine List.mem_map.mpr ⟨r, List.mem_filter.mpr ⟨hr, ?_⟩, he⟩
      simp [he]

/-- C3 witness at a concrete input with a null-species record. -/
theorem C3_witness :
    "Ara macao" ∈ lista_especies [limpio1, limpio2] ↔
      ∃ r ∈ [crudo_nulo, crudo1, crudo2], r.species = some "Ara macao" :=
  (C3_lista_especies [crudo_nulo, crudo1, crudo2] [limpio1, limpio2] (by decide)).2.2.2
    "Ara macao"

/-- C4, counterexample to the claim as stated: two overlapping polygons
with distinct identifiers and one filtered record inside both.  The
record is joined to both polygons, so the per-polygon counts sum to 2,
which exceeds the 1 filtered record. -/
theorem C4_counterexample :
    ((asp_registros [poligono_ej, poligono_ej2] [registro_gbif_ej]).map
      (fun p => p.2)).sum = 2 ∧
      [registro_gbif_ej].length = 1 := by
  decide

/-- C4 (amended): when every filtered record lies inside at most one
polygon (the polygons do not overlap on the records), the sum of all
per-polygon counts is at most the number of filtered records. -/
theorem C4_suma_le (asp : List Poligono) (rs : List RegistroLimpio)
    (h : ∀ r ∈ rs, (asp.filter (fun a => contiene a (punto r))).length ≤ 1) :
    ((asp_registros asp rs).map (fun p => p.2)).sum ≤ rs.length := by
  rw [sum_asp_registros]
  calc ((sjoin_contiene asp rs).filter (fun pr => (gbifID_fila pr).isSome)).length
      ≤ (asp.map (fun a => (rs.filter (fun r => contiene a (punto r))).length)).sum :=
        length_filter_gbif_le asp rs
    _ = (rs.map (fun r => (asp.filter (fun a => contiene a (punto r))).length)).sum :=
        sum_matches_exchange asp rs
    _ ≤ rs.length := sum_map_le_length _ _ h

/-- C4 witness at a concrete input. -/
theorem C4_witness :
    ((asp_registros [poligono_ej] [registro_gbif_ej]).map (fun p => p.2)).sum ≤
      [registro_gbif_ej].length :=
  C4_suma_le [poligono_ej] [registro_gbif_ej] (by decide)

/-- C5, counterexample to the claim as stated: one filtered record whose
event date is null (pandas `NaT`).  The `groupby` of lines 94-95 drops
the null key, so the yearly series is empty and sums to 0, not to the 1
filtered record. -/
theorem C5_counterexample :
    ((registros_presencia_grp_anio (filtrar [registro_sin_fecha_ej] "Puma concolor")).map
      (fun p => p.2)).sum = 0 ∧
      (filtrar [registro_sin_fecha_ej] "Puma concolor").length = 1 := by
  decide

/-- C5 (amended): when every filtered record has a non-null event date,
the yearly series (lines 94-95) and the monthly series (lines 108-109)
each sum to the total number of filtered records. -/
theorem C5_sumas (l : List RegistroLimpio) (esp : String)
    (h : ∀ r ∈ filtrar l esp, r.fecha.isSome = true) :
    ((registros_presencia_grp_anio (filtrar l esp)).map (fun p => p.2)).sum =
        (filtrar l esp).length ∧
      ((registros_presencia_grp_mes (filtrar l esp)).map (fun p => p.2)).sum =
        (filtrar l esp).length := by
  have hy : (filtrar l esp).filter
      (fun r => (r.fecha.map (fun f => f.year)).isSome) = filtrar l esp := by
    rw [List.filter_eq_self]
    intro r hr
    have hk := h r hr
    cases hf : r.fecha with
    | none => rw [hf] at hk; simp at hk
    | some f => simp [hf]
  have hm : (filtrar l esp).filter
      (fun r => (r.fecha.map (fun f => f.month)).isSome) = filtrar l esp := by
    rw [List.filter_eq_self]
    intro r hr
    have hk := h r hr
    cases hf : r.fecha with
    | none => rw [hf] at hk; simp at hk
    | some f => simp [hf]
  constructor
  · unfold registros_presencia_grp_anio
    rw [sum_agrupar_conteo, hy]
  · unfold registros_presencia_grp_mes
    rw [sum_agrupar_conteo, hm]

/-- C5 witness at a concrete input. -/
theorem C5_witness :
    ((registros_presencia_grp_anio (filtrar [registro_gbif_ej] "Puma concolor")).map
      (fun p => p.2)).sum = (filtrar [registro_gbif_ej] "Puma concolor").length :=
  (C5_sumas [registro_gbif_ej] "Puma concolor" (by decide)).1

/-- C6: for a polygon set with distinct identifiers, the aggregation of
lines 77-80 has exactly one row per polygon (its keys are a permutation
of the polygon identifiers); a polygon containing no filtered record gets
a zero-count row; and when no filtered record falls inside any polygon,
every row has count zero. -/
theorem C6_filas_asp (asp : List Poligono) (rs : List RegistroLimpio)
    (hnd : (asp.map (fun p => p.id)).Nodup) :
    ((asp_registros asp rs).map (fun p => p.1)).Perm (asp.map (fun p => p.id)) ∧
      (∀ a ∈ asp, (∀ r ∈ rs, contiene a (punto r) = false) →
        (a.id, 0) ∈ asp_registros asp rs) ∧
      ((∀ a ∈ asp, ∀ r ∈ rs, contiene a (punto r) = false) →
        ∀ p ∈ asp_registros asp rs, p.2 = 0) := by
  refine ⟨?_, ?_, ?_⟩
  · rw [asp_registros_eq, List.map_map]
    have hcomp : ((fun p : String × Nat => p.1) ∘
        fun i => (i, conteo_id (sjoin_contiene asp rs) i)) = id := rfl
    rw [hcomp, List.map_id, List.dedup_eq_self.mpr hnd]
    exact List.perm_insertionSort _ _
  · intro a ha hout
    have hmem := mem_asp_registros rs hnd ha
    rwa [cuenta_eq_zero hout] at hmem
  · intro hall p hp
    rw [asp_registros_eq] at hp
    obtain ⟨i, _, he⟩ := List.mem_map.mp hp
    rw [← he]
    exact conteo_id_zero_of_outside hall i

/-- C6 witness at a concrete input. -/
theorem C6_witness :
    ((asp_registros [poligono_ej] [registro_gbif_ej]).map (fun p => p.1)).Perm
      ([poligono_ej].map (fun p => p.id)) :=
  (C6_filas_asp [poligono_ej] [registro_gbif_ej] (by decide)).1

/-- C7: the chart rows of lines 124-126 all have a strictly positive
count, are ordered by count descending, number at most 15, and the list
is empty when every aggregation row has count zero. -/
theorem C7_grafico (asp : List Poligono) (rs : List RegistroLimpio) :
    (∀ p ∈ asp_registros_grafico asp rs, 0 < p.2) ∧
      List.Sorted ordenConteo (asp_registros_grafico asp rs) ∧
      (asp_registros_grafico asp rs).length ≤ 15 ∧
      ((∀ p ∈ asp_registros asp rs, p.2 = 0) → asp_registros_grafico asp rs = []) := by
  refine ⟨?_, ?_, ?_, ?_⟩
  · intro p hp
    unfold asp_registros_grafico at hp
    have h2 := List.take_subset 15 _ hp
    rw [List.mem_insertionSort] at h2
    have h3 := List.mem_filter.mp h2
    simpa using h3.2
  · exact List.Pairwise.sublist (List.take_sublist _ _) (List.sorted_insertionSort _ _)
  · exact List.length_take_le _ _
  · intro hz
    have hfe : (asp_registros_join asp rs).filter (fun p => decide (0 < p.2)) = [] := by
      rw [List.filter_eq_nil_iff]
      intro q hq
      obtain ⟨p, hp, he⟩ := mem_filas_join_snd hq
      have h0 := hz p hp
      simp [he, h0]
    unfold asp_registros_grafico
    rw [hfe]
    rfl

/-- C7 witness at a concrete input. -/
theorem C7_witness :
    (asp_registros_grafico [poligono_ej] [registro_gbif_ej]).length ≤ 15 :=
  (C7_grafico [poligono_ej] [registro_gbif_ej]).2.2.1

/-- C8: cleaning keeps exactly the records whose species is present (each
cleaned row is the date-coerced image of the corresponding kept raw row),
and the whole cleaning step succeeds exactly when every kept record's
event-date text parses — one unparsable date makes the whole run fail
with no partial output. -/
theorem C8_limpieza :
    (∀ rs : List Registro, (limpiar rs).isSome = true ↔
      ∀ r ∈ rs.filter (fun r => r.species.isSome), ∀ s, r.eventDate = some s →
        (to_datetime s).isSome = true) ∧
      (∀ (rs : List Registro) (l : List RegistroLimpio), limpiar rs = some l →
        List.Forall₂ (fun r x => convertir r = some x)
          (rs.filter (fun r => r.species.isSome)) l) := by
  constructor
  · intro rs
    unfold limpiar
    rw [limpiarFechas_isSome]
    constructor
    · intro h r hr s hs
      have hc := h r hr
      simp only [convertir, hs] at hc
      cases hd : to_datetime s with
      | none => rw [hd] at hc; simp at hc
      | some f => simp
    · intro h r hr
      cases hs : r.eventDate with
      | none => simp [convertir, hs]
      | some s =>
        have hd := h r hr s hs
        cases hd2 : to_datetime s with
        | none => rw [hd2] at hd; simp at hd
        | some f => simp [convertir, hs, hd2]
  · intro rs l h
    exact limpiarFechas_forall₂ h

/-- C8 witness at a concrete input with a null-species record. -/
theorem C8_witness :
    List.Forall₂ (fun r x => convertir r = some x)
      ([crudo_nulo, crudo1].filter (fun r => r.species.isSome)) [limpio1] :=
  C8_limpieza.2 [crudo_nulo, crudo1] [limpio1] (by decide)

/-- C9: with no uploaded file, the run is the upload prompt alone — no
polygon fetch, no cleaning, no filtering, no aggregation and no
rendering: the outcome does not depend on the polygon fetch or on the
selection at all (line 41's guard). -/
theorem C9_sin_archivo (f g : Unit → Option (List Poligono))
    (s t : List String → String) :
    ejecutar none f s = Resultado.sinArchivo ∧ ejecutar none f s = ejecutar none g t :=
  ⟨rfl, rfl⟩

/-- C10: a filtered record whose `gbifID` is null changes no polygon's
aggregation row: the `("gbifID", "count")` aggregation of line 79 counts
only non-null `gbifID` values. -/
theorem C10_gbif_nulo (asp : List Poligono) (rs : List RegistroLimpio)
    (r : RegistroLimpio) (hg : r.gbifID = none) :
    asp_registros asp (rs ++ [r]) = asp_registros asp rs := by
  rw [asp_registros_eq, asp_registros_eq]
  apply List.map_congr_left
  intro i _
  rw [conteo_id_sjoin_append_gbif_none asp rs hg i]

/-- C10 witness at a concrete input. -/
theorem C10_witness :
    asp_registros [poligono_ej] ([registro_gbif_ej] ++ [registro_sin_gbif_ej]) =
      asp_registros [poligono_ej] [registro_gbif_ej] :=
  C10_gbif_nulo [poligono_ej] [registro_gbif_ej] registro_sin_gbif_ej (by decide)

end Principal
